import Mathlib

/-!
# Verification of the walrus local-function validator

A shallow embedding of `src/module/functions/local_function/mod.rs`: the fused
WebAssembly function-body type checker and IR builder, plus the locals layout
emitter.  The validation context (operand stack, control stack, IR arena helpers)
lives in `context.rs`, which is not part of the given sources; those operations
are modelled from the specification (sections 4.1 - 4.3) and are marked
`Modelled from the spec:` in their doc comments.  Everything else is translated
directly from `mod.rs`.

Rust `bail!` messages are mapped to the error kinds of the specification's
section 7; distinct messages that the spec groups under one kind share a
constructor (e.g. every type-mismatch message maps to `Err.TypeMismatch`).
`unwrap`/panic paths are modelled as `Err.Fatal`.
-/

namespace Walrus

/-- Wasm value types (`ValType` in the walrus IR). -/
inductive ValType
  | i32
  | i64
  | f32
  | f64
  | v128
  | externref
  | funcref
  deriving DecidableEq, Repr

/-- Control-frame kinds (`BlockKind`). -/
inductive BlockKind
  | FunctionEntry
  | Block
  | Loop
  | If
  | Else
  deriving DecidableEq, Repr

/-- A control frame, section 3 of the spec / `context.rs`. -/
structure ControlFrame where
  kind : BlockKind
  startTypes : List ValType
  endTypes : List ValType
  /-- operand-stack depth at frame entry, counted from the stack bottom -/
  height : Nat
  unreachable : Bool
  /-- id of the IR sequence being populated for this frame -/
  block : Nat
  deriving DecidableEq, Repr

/-- Modelled from the spec: the label types of a frame are `start_types` if
`kind = Loop`, else `end_types` (section 3; `ControlFrame::label_types` in
`context.rs`). -/
def ControlFrame.labelTypes (f : ControlFrame) : List ValType :=
  match f.kind with
  | .Loop => f.startTypes
  | _ => f.endTypes

/-- A decoded `mem_arg` immediate after validation (`MemArg` in the IR). -/
structure MemArg where
  align : Nat
  offset : Nat
  deriving DecidableEq, Repr

/-- Constant values (only the integer cases are needed here). -/
inductive Value
  | I32 (v : Int)
  | I64 (v : Int)
  deriving DecidableEq, Repr

/-- IR instructions (`Instr`), restricted to the operators embedded below.
Structured control instructions carry the ids of their nested sequences. -/
inductive Instr
  | Const (value : Value)
  | Block (seq : Nat)
  | Loop (seq : Nat)
  | IfElse (consequent : Nat) (alternative : Nat)
  | Br (block : Nat)
  | BrIf (block : Nat)
  | BrTable (blocks : List Nat) (default : Nat)
  | Return
  | Unreachable
  | Drop
  | LocalGet (localId : Nat)
  | LocalSet (localId : Nat)
  | LocalTee (localId : Nat)
  | Load (arg : MemArg) (kind : ValType) (memory : Nat)
  | Store (arg : MemArg) (kind : ValType) (memory : Nat)
  deriving DecidableEq, Repr

/-- Error kinds, following section 7 of the spec.  Each `bail!` message in the
source is mapped to one kind; `Fatal` stands for `unwrap` panics that are
impossible in well-formed runs. -/
inductive Err
  | UnexpectedEof
  | StackUnderflow
  | TypeMismatch
  | UnknownLabel
  | UnknownIndex
  | InvalidAlignment
  | MalformedReservedByte
  | StrayElse
  | StackHeightMismatch
  | Fatal
  deriving DecidableEq, Repr

/-- A function type from the module's type table. -/
structure FuncType where
  params : List ValType
  results : List ValType
  deriving DecidableEq, Repr

/-- The read-only module tables consumed by the validator (section 6).
Ids are identified with indices, so the index resolver checks bounds. -/
structure Module where
  types : List FuncType
  /-- function id to type id -/
  funcs : List Nat
  /-- local id to value type -/
  locals : List ValType
  /-- number of memories -/
  memories : Nat
  deriving DecidableEq, Repr

def Module.typeOf (m : Module) (id : Nat) : FuncType :=
  m.types.getD id ⟨[], []⟩

/-- Modelled from the spec: `get_type(u32) -> type_id`, failing with
`UnknownIndex` (section 6; `IndicesToIds` is not part of the given sources). -/
def Module.getType (m : Module) (i : Nat) : Except Err Nat :=
  if i < m.types.length then .ok i else .error .UnknownIndex

/-- Modelled from the spec: `get_memory(u32) -> memory_id`, `UnknownIndex` on
failure. -/
def Module.getMemory (m : Module) (i : Nat) : Except Err Nat :=
  if i < m.memories then .ok i else .error .UnknownIndex

/-- Modelled from the spec: `get_local(func_id, u32) -> local_id`,
`UnknownIndex` on failure. -/
def Module.getLocal (m : Module) (_funcId : Nat) (i : Nat) : Except Err Nat :=
  if i < m.locals.length then .ok i else .error .UnknownIndex

/-- Pending if/else record (`context::IfElseState`): the consequent sequence id
and, once an `else` was seen, the alternative sequence id. -/
structure IfElseState where
  consequent : Nat
  alternative : Option Nat
  deriving DecidableEq, Repr

/-- The mutable validation state: operand stack (head = top; `none` is the
polymorphic sentinel), control stack (head = top), the if/else side stack and
the IR arena (sequence id = list index; each entry pairs an instruction with
its source location). -/
structure Ctx where
  operands : List (Option ValType)
  controls : List ControlFrame
  ifElse : List IfElseState
  arena : List (List (Instr × Nat))
  deriving DecidableEq, Repr

/-- Modelled from the spec: push a concrete type or the polymorphic sentinel
(section 4.1). -/
def Ctx.pushOperand (c : Ctx) (t : Option ValType) : Ctx :=
  { c with operands := t :: c.operands }

/-- Modelled from the spec: pop fails with `StackUnderflow` if the stack would
drop below the top frame's height while that frame is reachable; at height in
an unreachable frame it yields the sentinel without shrinking (section 4.1). -/
def Ctx.popOperand (c : Ctx) : Except Err (Option ValType × Ctx) :=
  match c.controls with
  | f :: _ =>
      if c.operands.length ≤ f.height then
        if f.unreachable then .ok (none, c)
        else .error .StackUnderflow
      else
        match c.operands with
        | [] => .error .StackUnderflow
        | t :: rest => .ok (t, { c with operands := rest })
  | [] =>
      match c.operands with
      | [] => .error .StackUnderflow
      | t :: rest => .ok (t, { c with operands := rest })

/-- Modelled from the spec: pop then unify with `expected`; equal types or
either side polymorphic are fine, otherwise `TypeMismatch` (section 4.1). -/
def Ctx.popOperandExpected (c : Ctx) (expected : Option ValType) :
    Except Err (Option ValType × Ctx) :=
  match c.popOperand with
  | .error e => .error e
  | .ok (actual, c) =>
      match actual, expected with
      | none, e => .ok (e, c)
      | some a, none => .ok (some a, c)
      | some a, some e => if a = e then .ok (some a, c) else .error .TypeMismatch

/-- Helper for `popOperands`: pop the given (already reversed) expected types
one by one. -/
def Ctx.popOperandsRev : Ctx → List ValType → Except Err Ctx
  | c, [] => .ok c
  | c, t :: rest =>
      match c.popOperandExpected (some t) with
      | .error e => .error e
      | .ok (_, c) => c.popOperandsRev rest

/-- Modelled from the spec: pop an expected type vector in reverse order (last
expected type popped first), unifying each (section 4.1). -/
def Ctx.popOperands (c : Ctx) (expected : List ValType) : Except Err Ctx :=
  c.popOperandsRev expected.reverse

/-- Modelled from the spec: push a type vector left-to-right (section 4.1). -/
def Ctx.pushOperands (c : Ctx) (ts : List ValType) : Ctx :=
  ts.foldl (fun c t => c.pushOperand (some t)) c

/-- Modelled from the spec: `control(n)` peeks the n-th frame from the top and
fails with `UnknownLabel` when out of range (section 4.2). -/
def Ctx.control (c : Ctx) (n : Nat) : Except Err ControlFrame :=
  match c.controls.get? n with
  | some f => .ok f
  | none => .error .UnknownLabel

/-- Modelled from the spec: `push_control` pops `start_types`, allocates a
fresh empty IR sequence, pushes a reachable frame whose height is the operand
depth, then pushes `start_types` back (section 4.2). -/
def Ctx.pushControl (c : Ctx) (kind : BlockKind)
    (startTypes endTypes : List ValType) : Except Err (Nat × Ctx) :=
  match c.popOperands startTypes with
  | .error e => .error e
  | .ok c =>
      let seq := c.arena.length
      let c := { c with arena := c.arena ++ [[]] }
      let frame : ControlFrame :=
        { kind := kind, startTypes := startTypes, endTypes := endTypes,
          height := c.operands.length, unreachable := false, block := seq }
      let c := { c with controls := frame :: c.controls }
      .ok (seq, c.pushOperands startTypes)

/-- Modelled from the spec: `pop()` on the control stack checks that exactly
`end_types` sit above the frame's height (with polymorphism as in section 4.1),
then removes the frame; `end_types` are pushed back only by the caller
(section 4.2). -/
def Ctx.popControl (c : Ctx) : Except Err (ControlFrame × Ctx) :=
  match c.controls with
  | [] => .error .Fatal
  | frame :: _ =>
      match c.popOperands frame.endTypes with
      | .error e => .error e
      | .ok c =>
          if c.operands.length = frame.height then
            .ok (frame, { c with controls := c.controls.tail })
          else .error .StackHeightMismatch

/-- Modelled from the spec: mark the top frame unreachable and truncate the
operand stack to its height (section 4.2). -/
def Ctx.unreachable (c : Ctx) : Ctx :=
  match c.controls with
  | [] => c
  | f :: rest =>
      { c with controls := { f with unreachable := true } :: rest,
               operands := c.operands.drop (c.operands.length - f.height) }

/-- Append an (instruction, location) pair to the sequence with the given id. -/
def appendAt (arena : List (List (Instr × Nat))) (i : Nat) (x : Instr × Nat) :
    List (List (Instr × Nat)) :=
  arena.set i (arena.getD i [] ++ [x])

/-- Modelled from the spec: append an IR node into the sequence of the `n`-th
control frame from the top (section 4.3; used by `Block`/`Loop` with `n = 1`
for the parent sequence). -/
def Ctx.allocInstrInControl (c : Ctx) (n : Nat) (instr : Instr) (loc : Nat) :
    Except Err Ctx :=
  match c.control n with
  | .error e => .error e
  | .ok f => .ok { c with arena := appendAt c.arena f.block (instr, loc) }

/-- Modelled from the spec: append an IR node into the current sequence, i.e.
the sequence of the top control frame (section 4.3).  The source unwraps, so an
empty control stack is the panic path `Fatal`. -/
def Ctx.allocInstr (c : Ctx) (instr : Instr) (loc : Nat) : Except Err Ctx :=
  c.allocInstrInControl 0 instr loc

/-- Block type annotations (`wasmparser::TypeOrFuncType`): inline empty, a
single inline result type, or an index into the module's type table. -/
inductive BlockType
  | Empty
  | Val (t : ValType)
  | Func (idx : Nat)
  deriving DecidableEq, Repr

/-- The operators embedded in this development, a representative subset of
`wasmparser::Operator` covering the claims.  Loads and stores carry the raw
`mem_arg` immediate `(flags, offset)`. -/
inductive Operator
  | I32Const (value : Int)
  | I64Const (value : Int)
  | Drop
  | Nop
  | Block (ty : BlockType)
  | Loop (ty : BlockType)
  | If (ty : BlockType)
  | Else
  | End
  | Br (relative_depth : Nat)
  | BrIf (relative_depth : Nat)
  | BrTable (labels : List Nat) (default : Nat)
  | Return
  | Unreachable
  | LocalGet (local_index : Nat)
  | LocalSet (local_index : Nat)
  | LocalTee (local_index : Nat)
  | I32Load (flags : Nat) (offset : Nat)
  | I32Store (flags : Nat) (offset : Nat)
  deriving DecidableEq, Repr

/-- Function `block_result_tys`: a plain type annotation yields its (zero or one)
result types, a function-type index resolves results from the type table. -/
def blockResultTys (m : Module) : BlockType → Except Err (List ValType)
  | .Empty => .ok []
  | .Val t => .ok [t]
  | .Func idx =>
      match m.getType idx with
      | .error e => .error e
      | .ok ty => .ok (m.typeOf ty).results

/-- Function `block_param_tys`: a plain type annotation has no params, a function-type
index resolves params from the type table. -/
def blockParamTys (m : Module) : BlockType → Except Err (List ValType)
  | .Empty => .ok []
  | .Val _ => .ok []
  | .Func idx =>
      match m.getType idx with
      | .error e => .error e
      | .ok ty => .ok (m.typeOf ty).params

/-- The `mem_arg` closure of `validate_instruction`: reject `flags >= 32` with
an invalid-alignment error, otherwise `align = 1 << flags`. -/
def memArg (flags offset : Nat) : Except Err MemArg :=
  if flags ≥ 32 then .error .InvalidAlignment
  else .ok { align := 2 ^ flags, offset := offset }

/-- The `load` closure: pop the `i32` address, resolve memory 0, decode the
`mem_arg`, append a `Load` node, push the loaded type. -/
def loadOp (m : Module) (c : Ctx) (flags offset : Nat) (ty : ValType)
    (loc : Nat) : Except Err Ctx :=
  match c.popOperandExpected (some .i32) with
  | .error e => .error e
  | .ok (_, c) =>
      match m.getMemory 0 with
      | .error e => .error e
      | .ok memory =>
          match memArg flags offset with
          | .error e => .error e
          | .ok arg =>
              match c.allocInstr (.Load arg ty memory) loc with
              | .error e => .error e
              | .ok c => .ok (c.pushOperand (some ty))

/-- The `store` closure: pop the stored value then the `i32` address, resolve
memory 0, decode the `mem_arg`, append a `Store` node. -/
def storeOp (m : Module) (c : Ctx) (flags offset : Nat) (ty : ValType)
    (loc : Nat) : Except Err Ctx :=
  match c.popOperandExpected (some ty) with
  | .error e => .error e
  | .ok (_, c) =>
      match c.popOperandExpected (some .i32) with
      | .error e => .error e
      | .ok (_, c) =>
          match m.getMemory 0 with
          | .error e => .error e
          | .ok memory =>
              match memArg flags offset with
              | .error e => .error e
              | .ok arg => c.allocInstr (.Store arg ty memory) loc

/-- The label-checking loop of the `BrTable` arm: for each label, resolve its
frame, collect its sequence id, require the label arity to match, and for
reachable frames require the label types to equal the expected vector
element-wise (the expected vector is never modified by the loop). -/
def brTableCheck (c : Ctx) : List Nat → List ValType → Except Err (List Nat)
  | [], _ => .ok []
  | label :: rest, types =>
      match c.control label with
      | .error e => .error e
      | .ok f =>
          if f.labelTypes.length ≠ types.length then .error .TypeMismatch
          else if f.unreachable then
            match brTableCheck c rest types with
            | .error e => .error e
            | .ok bs => .ok (f.block :: bs)
          else if f.labelTypes = types then
            match brTableCheck c rest types with
            | .error e => .error e
            | .ok bs => .ok (f.block :: bs)
          else .error .TypeMismatch

/-- The `Operator::End` arm of `validate_instruction`: pop the current frame;
for `If`/`Else` frames pop the if/else record and emit an `IfElse` node into
the now-current sequence, synthesizing an empty alternative (push then pop an
`Else` frame with the frame's types) when no `else` was seen; finally push the
frame's `end_types`. -/
def validateEnd (c : Ctx) (loc : Nat) : Except Err Ctx :=
  match c.popControl with
  | .error e => .error e
  | .ok (frame, c) =>
      match frame.kind with
      | .If | .Else =>
          match c.ifElse with
          | [] => .error .Fatal
          | st :: rest =>
              let c := { c with ifElse := rest }
              match st.alternative with
              | some alt =>
                  match c.allocInstr (.IfElse st.consequent alt) loc with
                  | .error e => .error e
                  | .ok c => .ok (c.pushOperands frame.endTypes)
              | none =>
                  match c.pushControl .Else frame.startTypes frame.endTypes with
                  | .error e => .error e
                  | .ok (alternative, c) =>
                      match c.popControl with
                      | .error e => .error e
                      | .ok (_, c) =>
                          match c.allocInstr
                              (.IfElse st.consequent alternative) loc with
                          | .error e => .error e
                          | .ok c => .ok (c.pushOperands frame.endTypes)
      | _ => .ok (c.pushOperands frame.endTypes)

/-- The `Operator::Else` arm: pop the current frame; any kind other than `If`
is a stray `else`; push an `Else` frame with the popped frame's types and
record the alternative sequence id in the top if/else record (a record that
already has an alternative is also a stray `else`: the source bails with the
same message). -/
def validateElse (c : Ctx) (_loc : Nat) : Except Err Ctx :=
  match c.popControl with
  | .error e => .error e
  | .ok (frame, c) =>
      match frame.kind with
      | .If =>
          match c.pushControl .Else frame.startTypes frame.endTypes with
          | .error e => .error e
          | .ok (alternative, c) =>
              match c.ifElse with
              | [] => .error .Fatal
              | last :: rest =>
                  if last.alternative.isSome then .error .StrayElse
                  else .ok { c with ifElse :=
                    { last with alternative := some alternative } :: rest }
      | _ => .error .StrayElse

/-- The `Operator::BrTable` arm: resolve the default frame, take its label
types as the expected vector, run the label checks, pop the `i32` selector,
pop the expected types, append a `BrTable` node and mark the current frame
unreachable. -/
def validateBrTable (c : Ctx) (labels : List Nat) (default : Nat)
    (loc : Nat) : Except Err Ctx :=
  match c.control default with
  | .error e => .error e
  | .ok df =>
      let types := df.labelTypes
      let defaultBlock := df.block
      match brTableCheck c labels types with
      | .error e => .error e
      | .ok blocks =>
          match c.popOperandExpected (some .i32) with
          | .error e => .error e
          | .ok (_, c) =>
              match c.popOperands types with
              | .error e => .error e
              | .ok c =>
                  match c.allocInstr (.BrTable blocks defaultBlock) loc with
                  | .error e => .error e
                  | .ok c => .ok c.unreachable

/-- Function `validate_instruction`, restricted to the embedded operator subset; each
arm mirrors the corresponding match arm of the source. -/
def validateInstruction (m : Module) (funcId : Nat) (c : Ctx)
    (inst : Operator) (loc : Nat) : Except Err Ctx :=
  match inst with
  | .I32Const v =>
      match c.allocInstr (.Const (.I32 v)) loc with
      | .error e => .error e
      | .ok c => .ok (c.pushOperand (some .i32))
  | .I64Const v =>
      match c.allocInstr (.Const (.I64 v)) loc with
      | .error e => .error e
      | .ok c => .ok (c.pushOperand (some .i64))
  | .Drop =>
      match c.popOperand with
      | .error e => .error e
      | .ok (_, c) => c.allocInstr .Drop loc
  | .Nop => .ok c
  | .Block ty =>
      match blockParamTys m ty with
      | .error e => .error e
      | .ok paramTys =>
          match blockResultTys m ty with
          | .error e => .error e
          | .ok resultTys =>
              match c.popOperands paramTys with
              | .error e => .error e
              | .ok c =>
                  match c.pushControl .Block paramTys resultTys with
                  | .error e => .error e
                  | .ok (seq, c) => c.allocInstrInControl 1 (.Block seq) loc
  | .Loop ty =>
      match blockResultTys m ty with
      | .error e => .error e
      | .ok resultTys =>
          match blockParamTys m ty with
          | .error e => .error e
          | .ok paramTys =>
              match c.popOperands paramTys with
              | .error e => .error e
              | .ok c =>
                  match c.pushControl .Loop paramTys resultTys with
                  | .error e => .error e
                  | .ok (seq, c) => c.allocInstrInControl 1 (.Loop seq) loc
  | .If ty =>
      match blockResultTys m ty with
      | .error e => .error e
      | .ok resultTys =>
          match blockParamTys m ty with
          | .error e => .error e
          | .ok paramTys =>
              match c.popOperandExpected (some .i32) with
              | .error e => .error e
              | .ok (_, c) =>
                  match c.popOperands paramTys with
                  | .error e => .error e
                  | .ok c =>
                      match c.pushControl .If paramTys resultTys with
                      | .error e => .error e
                      | .ok (consequent, c) =>
                          .ok { c with
                            ifElse := ⟨consequent, none⟩ :: c.ifElse }
  | .Else => validateElse c loc
  | .End => validateEnd c loc
  | .Br n =>
      match c.control n with
      | .error e => .error e
      | .ok f =>
          match c.popOperands f.labelTypes with
          | .error e => .error e
          | .ok c =>
              match c.control n with
              | .error e => .error e
              | .ok f2 =>
                  match c.allocInstr (.Br f2.block) loc with
                  | .error e => .error e
                  | .ok c => .ok c.unreachable
  | .BrIf n =>
      match c.popOperandExpected (some .i32) with
      | .error e => .error e
      | .ok (_, c) =>
          match c.control n with
          | .error e => .error e
          | .ok f =>
              match c.popOperands f.labelTypes with
              | .error e => .error e
              | .ok c =>
                  match c.control n with
                  | .error e => .error e
                  | .ok f2 =>
                      match c.allocInstr (.BrIf f2.block) loc with
                      | .error e => .error e
                      | .ok c => .ok (c.pushOperands f.labelTypes)
  | .BrTable labels default => validateBrTable c labels default loc
  | .Return =>
      match c.popOperands (m.typeOf (m.funcs.getD funcId 0)).results with
      | .error e => .error e
      | .ok c =>
          match c.allocInstr .Return loc with
          | .error e => .error e
          | .ok c => .ok c.unreachable
  | .Unreachable =>
      match c.allocInstr .Unreachable loc with
      | .error e => .error e
      | .ok c => .ok c.unreachable
  | .LocalGet idx =>
      match m.getLocal funcId idx with
      | .error e => .error e
      | .ok l =>
          match c.allocInstr (.LocalGet l) loc with
          | .error e => .error e
          | .ok c => .ok (c.pushOperand (some (m.locals.getD l .i32)))
  | .LocalSet idx =>
      match m.getLocal funcId idx with
      | .error e => .error e
      | .ok l =>
          match c.popOperandExpected (some (m.locals.getD l .i32)) with
          | .error e => .error e
          | .ok (_, c) => c.allocInstr (.LocalSet l) loc
  | .LocalTee idx =>
      match m.getLocal funcId idx with
      | .error e => .error e
      | .ok l =>
          match c.popOperandExpected (some (m.locals.getD l .i32)) with
          | .error e => .error e
          | .ok (_, c) =>
              match c.allocInstr (.LocalTee l) loc with
              | .error e => .error e
              | .ok c => .ok (c.pushOperand (some (m.locals.getD l .i32)))
  | .I32Load flags offset => loadOp m c flags offset .i32 loc
  | .I32Store flags offset => storeOp m c flags offset .i32 loc

/-- The parse loop: validate each (operator, byte offset) in turn. -/
def runBody (m : Module) (funcId : Nat) : Ctx → List (Operator × Nat) →
    Except Err Ctx
  | c, [] => .ok c
  | c, (inst, pos) :: rest =>
      match validateInstruction m funcId c inst pos with
      | .error e => .error e
      | .ok c => runBody m funcId c rest

/-- The empty initial state created when function decoding begins. -/
def initCtx : Ctx :=
  { operands := [], controls := [], ifElse := [], arena := [] }

/-- The result of a successful parse: the entry sequence id and the arena. -/
structure ParsedFunc where
  entry : Nat
  arena : List (List (Instr × Nat))
  deriving DecidableEq, Repr

/-- Function `LocalFunction::parse` up to (but not including) the final control-stack
check: push the function-entry frame (start types empty, end types the
function's results) and run the body, returning the entry id and final state. -/
def parseRun (m : Module) (funcId tyId : Nat) (ops : List (Operator × Nat)) :
    Except Err (Nat × Ctx) :=
  match initCtx.pushControl .FunctionEntry [] (m.typeOf tyId).results with
  | .error e => .error e
  | .ok (entry, c) =>
      match runBody m funcId c ops with
      | .error e => .error e
      | .ok c => .ok (entry, c)

/-- Function `LocalFunction::parse`: after the body, the control stack must be empty
(`"function failed to end with end"`, mapped to `UnexpectedEof`). -/
def parse (m : Module) (funcId tyId : Nat) (ops : List (Operator × Nat)) :
    Except Err ParsedFunc :=
  match parseRun m funcId tyId ops with
  | .error e => .error e
  | .ok (entry, c) =>
      if c.controls.isEmpty then .ok { entry := entry, arena := c.arena }
      else .error .UnexpectedEof

/-- A parsed local function in the sense of `LocalFunction`: its argument
local ids, entry sequence id and the arena of instruction sequences. -/
structure LocalFunction where
  args : List Nat
  entry : Nat
  arena : List (List (Instr × Nat))
  deriving DecidableEq, Repr

/-- The local ids referenced directly by one instruction (the
`visit_local_id` visitor calls). -/
def instrLocalIds : Instr → List Nat
  | .LocalGet l => [l]
  | .LocalSet l => [l]
  | .LocalTee l => [l]
  | _ => []

/-- The nested sequence ids of one instruction (how `dfs_in_order` descends). -/
def instrChildren : Instr → List Nat
  | .Block s => [s]
  | .Loop s => [s]
  | .IfElse a b => [a, b]
  | _ => []

/-- Modelled from the spec: walk the IR tree from a sequence, collecting every
referenced local id (section 4.5; `dfs_in_order` lives outside the given
sources).  `fuel` bounds the nesting depth; `arena.length` suffices for the
tree-shaped arenas produced by `parse`. -/
def walkLocals (arena : List (List (Instr × Nat))) : Nat → Nat → List Nat
  | 0, _ => []
  | fuel + 1, seq =>
      (arena.getD seq []).flatMap fun x =>
        instrLocalIds x.1 ++
          (instrChildren x.1).flatMap (walkLocals arena fuel)

/-- Function `LocalFunction::used_locals`: all local ids referenced by instructions
reachable from the entry sequence (as a list, possibly with repeats; the
source's `IdHashSet` is its set of elements). -/
def LocalFunction.used_locals (f : LocalFunction) : List Nat :=
  walkLocals f.arena f.arena.length f.entry

/-- Modelled from the spec: the deterministic order of the value-type key used
by the ordered `BTreeMap` grouping body locals (section 4.5; the `Ord`
instance on `ValType` lives outside the given sources).  The order of
section 3's value-type enumeration is used. -/
def ValType.key : ValType → Nat
  | .i32 => 0
  | .i64 => 1
  | .f32 => 2
  | .f64 => 3
  | .v128 => 4
  | .funcref => 5
  | .externref => 6

/-- All value types in ascending key order. -/
def allValTypes : List ValType :=
  [.i32, .i64, .f32, .f64, .v128, .funcref, .externref]

/-- Lookup `module.locals.get(local).ty()`. -/
def Module.localTy (m : Module) (l : Nat) : ValType :=
  m.locals.getD l .i32

/-- The `ty_to_locals` map of `emit_locals`: iterate the sorted used locals,
skip arguments, bucket each remaining local by its type; the `BTreeMap`
iterates buckets in ascending type-key order, each bucket in insertion order,
and only types with at least one local have an entry. -/
def tyToLocals (m : Module) (args used : List Nat) :
    List (ValType × List Nat) :=
  (allValTypes.map fun ty =>
      (ty, (used.filter fun l => !args.contains l).filter
        fun l => decide (m.localTy l = ty))).filter
    fun p => !p.2.isEmpty

/-- Modelled from the spec: one encoder token per emitted item, `usize n` for
a LEB128 count and `vt t` for a value-type byte (section 6 wire format; the
`Encoder` lives outside the given sources). -/
inductive EncTok
  | usize (n : Nat)
  | vt (t : ValType)
  deriving DecidableEq, Repr

/-- Consecutive index assignment from `i` on (the `local_map.insert` loops of
`emit_locals`, preserving insertion order). -/
def assignIdx : Nat → List Nat → List (Nat × Nat)
  | _, [] => []
  | i, l :: rest => (l, i) :: assignIdx (i + 1) rest

/-- Hash-map lookup over the insertion-order entry list: a later insert of the
same key shadows an earlier one. -/
def mapLookup : List (Nat × Nat) → Nat → Option Nat
  | [], _ => none
  | (a, v) :: rest, k =>
      match mapLookup rest k with
      | some w => some w
      | none => if k = a then some v else none

/-- Function `LocalFunction::emit_locals`, parameterized by the iteration order
`setIter` of the used-locals hash set (standing for the unspecified
`IdHashSet` iteration order): sort the used locals, group the non-argument
ones by type in ascending type-key order, assign indices to the arguments in
order and then consecutively to the grouped locals, and emit the compact
locals declaration (group count, then each group's count and type).  Returns
the used set (canonically sorted), the index-map entries in insertion order,
and the encoder output. -/
def emitLocalsWith (m : Module) (f : LocalFunction) (setIter : List Nat) :
    List Nat × List (Nat × Nat) × List EncTok :=
  let used_locals := setIter.insertionSort (· ≤ ·)
  let ty_to_locals := tyToLocals m f.args used_locals
  let argEntries := assignIdx 0 f.args
  let restEntries := assignIdx f.args.length (ty_to_locals.flatMap (·.2))
  let enc := EncTok.usize ty_to_locals.length ::
      ty_to_locals.flatMap fun p => [EncTok.usize p.2.length, EncTok.vt p.1]
  (used_locals, argEntries ++ restEntries, enc)

/-- Function `emit_locals` at the canonical iteration order (by determinism the choice
does not matter). -/
def emitLocals (m : Module) (f : LocalFunction) :
    List Nat × List (Nat × Nat) × List EncTok :=
  emitLocalsWith m f f.used_locals.dedup

/-- Concrete module with one memory, used in witnesses. -/
def exMemModule : Module :=
  { types := [⟨[], []⟩], funcs := [0], locals := [], memories := 1 }

/-- Concrete context: function-entry frame, two `i32` operands. -/
def exMemCtx : Ctx :=
  { operands := [some .i32, some .i32],
    controls := [⟨.FunctionEntry, [], [], 0, false, 0⟩],
    ifElse := [], arena := [[]] }

/-- State `exMemCtx` after popping one operand. -/
def exMemCtx1 : Ctx :=
  { operands := [some .i32],
    controls := [⟨.FunctionEntry, [], [], 0, false, 0⟩],
    ifElse := [], arena := [[]] }

/-- Concrete module whose only function has type `() -> i32`. -/
def exI32Module : Module :=
  { types := [⟨[], [.i32]⟩], funcs := [0], locals := [], memories := 0 }

/-- Concrete operator stream `i32.const 42; end`. -/
def exI32Ops : List (Operator × Nat) := [(.I32Const 42, 0), (.End, 1)]

/-- The function-entry frame of `exI32Module`'s function. -/
def exEntryFrame : ControlFrame := ⟨.FunctionEntry, [], [.i32], 0, false, 0⟩

/-- State just before the terminating `end` of `i32.const 42; end`. -/
def exEndCtx : Ctx :=
  { operands := [some .i32], controls := [exEntryFrame],
    ifElse := [], arena := [[(.Const (.I32 42), 0)]] }

/-- State just after that terminating `end`. -/
def exEndCtx' : Ctx :=
  { operands := [some .i32], controls := [],
    ifElse := [], arena := [[(.Const (.I32 42), 0)]] }

/-- Stray-else witness state: only the function-entry frame is open. -/
def exStrayCtx : Ctx :=
  { operands := [], controls := [⟨.FunctionEntry, [], [], 0, false, 0⟩],
    ifElse := [], arena := [[]] }

/-- Witness state with an open `If` frame. -/
def exIfCtx : Ctx :=
  { operands := [],
    controls := [⟨.If, [], [], 0, false, 1⟩,
                 ⟨.FunctionEntry, [], [], 0, false, 0⟩],
    ifElse := [⟨1, none⟩], arena := [[], []] }

/-- State `exIfCtx` after a valid `else`. -/
def exIfCtx' : Ctx :=
  { operands := [],
    controls := [⟨.Else, [], [], 0, false, 2⟩,
                 ⟨.FunctionEntry, [], [], 0, false, 0⟩],
    ifElse := [⟨1, some 2⟩], arena := [[], [], []] }

/-- Witness state for C8: entry frame with label types `[i32]` and two `i32`
operands. -/
def exBrIfCtx : Ctx :=
  { operands := [some .i32, some .i32], controls := [exEntryFrame],
    ifElse := [], arena := [[]] }

/-- State `exBrIfCtx` after a successful `br_if 0`. -/
def exBrIfCtx' : Ctx :=
  { operands := [some .i32], controls := [exEntryFrame],
    ifElse := [], arena := [[(.BrIf 0, 9)]] }

/-- State just before the `end` that closes an `if` with no `else` (body
`i32.const 1; if; end; end` of a `() -> ()` function, at the first `end`). -/
def exEndIfCtx : Ctx :=
  { operands := [],
    controls := [⟨.If, [], [], 0, false, 1⟩,
                 ⟨.FunctionEntry, [], [], 0, false, 0⟩],
    ifElse := [⟨1, none⟩],
    arena := [[(.Const (.I32 1), 0)], []] }

/-- State `exEndIfCtx` after popping the `If` frame. -/
def exEndIfCmid : Ctx :=
  { operands := [],
    controls := [⟨.FunctionEntry, [], [], 0, false, 0⟩],
    ifElse := [⟨1, none⟩],
    arena := [[(.Const (.I32 1), 0)], []] }

/-- State `exEndIfCtx` after the `end`: an `IfElse` node with empty alternative
(sequence 2) has been appended to the entry sequence. -/
def exEndIfCtx' : Ctx :=
  { operands := [],
    controls := [⟨.FunctionEntry, [], [], 0, false, 0⟩],
    ifElse := [],
    arena := [[(.Const (.I32 1), 0), (.IfElse 1 2, 5)], [], []] }

/-- The S4 scenario state: inside an inner `block [i64]`, an outer
`block [i32]` and the entry frame, with two `i32` operands. -/
def exBrTblCtx : Ctx :=
  { operands := [some .i32, some .i32],
    controls := [⟨.Block, [], [.i64], 2, false, 2⟩,
                 ⟨.Block, [], [.i32], 1, false, 1⟩,
                 ⟨.FunctionEntry, [], [.i32], 0, false, 0⟩],
    ifElse := [], arena := [[], [], []] }

/-- Concrete module for the locals-emitter witnesses: four body locals of
alternating types. -/
def exLocModule : Module :=
  { types := [⟨[.i32], []⟩], funcs := [0], locals := [.i32, .f64, .i32, .f64],
    memories := 0 }

/-- Concrete function: one argument (local 0), body referencing locals 3 and
2. -/
def exLocFunc : LocalFunction :=
  { args := [0], entry := 0,
    arena := [[(.LocalGet 3, 0), (.LocalGet 2, 1), (.LocalGet 3, 2)]] }

theorem Ctx.popOperand_state {c c' : Ctx} {t : Option ValType}
    (h : c.popOperand = .ok (t, c')) :
    c'.controls = c.controls ∧ c'.ifElse = c.ifElse ∧ c'.arena = c.arena := by
  unfold Ctx.popOperand at h
  split at h
  all_goals try split at h
  all_goals try split at h
  all_goals first
  | exact Except.noConfusion h
  | (injection h with h1; injection h1 with h2 h3; subst h3; exact ⟨rfl, rfl, rfl⟩)

theorem Ctx.popOperandExpected_state {c c' : Ctx} {e t : Option ValType}
    (h : c.popOperandExpected e = .ok (t, c')) :
    c'.controls = c.controls ∧ c'.ifElse = c.ifElse ∧ c'.arena = c.arena := by
  unfold Ctx.popOperandExpected at h
  split at h
  · exact Except.noConfusion h
  · rename_i heq
    have hs := Ctx.popOperand_state heq
    split at h
    all_goals try split at h
    all_goals first
    | exact Except.noConfusion h
    | (injection h with h1; injection h1 with h2 h3; subst h3; exact hs)

theorem Ctx.popOperandsRev_state {ts : List ValType} :
    ∀ {c c' : Ctx}, c.popOperandsRev ts = .ok c' →
      c'.controls = c.controls ∧ c'.ifElse = c.ifElse ∧ c'.arena = c.arena := by
  induction ts with
  | nil =>
    intro c c' h
    unfold Ctx.popOperandsRev at h
    injection h with h1
    subst h1
    exact ⟨rfl, rfl, rfl⟩
  | cons t rest ih =>
    intro c c' h
    unfold Ctx.popOperandsRev at h
    split at h
    · exact Except.noConfusion h
    · rename_i heq
      have h1 := Ctx.popOperandExpected_state heq
      have h2 := ih h
      exact ⟨h2.1.trans h1.1, h2.2.1.trans h1.2.1, h2.2.2.trans h1.2.2⟩

theorem Ctx.popOperands_state {c c' : Ctx} {ts : List ValType}
    (h : c.popOperands ts = .ok c') :
    c'.controls = c.controls ∧ c'.ifElse = c.ifElse ∧ c'.arena = c.arena :=
  Ctx.popOperandsRev_state h

theorem Ctx.pushOperands_state {ts : List ValType} : ∀ {c : Ctx},
    (c.pushOperands ts).operands = (ts.map some).reverse ++ c.operands ∧
    (c.pushOperands ts).controls = c.controls ∧
    (c.pushOperands ts).ifElse = c.ifElse ∧
    (c.pushOperands ts).arena = c.arena := by
  induction ts with
  | nil => intro c; exact ⟨rfl, rfl, rfl, rfl⟩
  | cons t rest ih =>
    intro c
    have h := @ih (c.pushOperand (some t))
    unfold Ctx.pushOperands at h ⊢
    simp only [List.foldl_cons]
    refine ⟨?_, h.2⟩
    rw [h.1]
    simp [Ctx.pushOperand]

theorem Ctx.control_congr {c c' : Ctx} (h : c'.controls = c.controls) (n : Nat) :
    c'.control n = c.control n := by
  unfold Ctx.control
  rw [h]

theorem Ctx.allocInstr_ok {c c' : Ctx} {i : Instr} {loc : Nat}
    (h : c.allocInstr i loc = .ok c') :
    ∃ g gs, c.controls = g :: gs ∧
      c' = { c with arena := appendAt c.arena g.block (i, loc) } := by
  cases hc : c.controls with
  | nil =>
    unfold Ctx.allocInstr Ctx.allocInstrInControl Ctx.control at h
    rw [hc] at h
    exact Except.noConfusion h
  | cons g gs =>
    unfold Ctx.allocInstr Ctx.allocInstrInControl Ctx.control at h
    rw [hc] at h
    simp only [List.get?_cons_zero] at h
    injection h with h1
    exact ⟨g, gs, rfl, h1.symm⟩

theorem Ctx.allocInstr_err {c : Ctx} {i : Instr} {loc : Nat} {e : Err}
    (h : c.allocInstr i loc = .error e) : e = .UnknownLabel := by
  cases hc : c.controls with
  | nil =>
    unfold Ctx.allocInstr Ctx.allocInstrInControl Ctx.control at h
    rw [hc] at h
    simp only [List.get?_nil] at h
    injection h with h1
    exact h1.symm
  | cons g gs =>
    unfold Ctx.allocInstr Ctx.allocInstrInControl Ctx.control at h
    rw [hc] at h
    simp only [List.get?_cons_zero] at h
    exact Except.noConfusion h

theorem Ctx.unreachable_controls {c : Ctx} {g : ControlFrame}
    {gs : List ControlFrame} (h : c.controls = g :: gs) :
    c.unreachable.controls = { g with unreachable := true } :: gs ∧
    c.unreachable.ifElse = c.ifElse ∧ c.unreachable.arena = c.arena := by
  unfold Ctx.unreachable
  rw [h]
  exact ⟨rfl, rfl, rfl⟩

/-- C10: validating the `nop` operator always succeeds and changes nothing:
no IR node is appended to any sequence, and the operand stack, control stack,
if/else side stack and arena (hence the function's instruction count) are left
exactly as they were. -/
theorem c10_nop_identity (m : Module) (funcId : Nat) (c : Ctx) (loc : Nat) :
    validateInstruction m funcId c .Nop loc = .ok c := rfl

/-- C7: decoding a `mem_arg` fails with `InvalidAlignment` exactly when
`flags ≥ 32`, and otherwise yields `align = 1 <<< flags`; the load and store
operators delegate to the shared closures, which fail with `InvalidAlignment`
iff `flags ≥ 32` (once the operand pops and the memory lookup succeed), and on
success append a `Load`/`Store` node whose `align` field is `1 <<< flags`. -/
theorem c7_mem_arg_alignment (m : Module) (funcId : Nat) (c : Ctx)
    (flags offset loc : Nat) (ty : ValType) :
    (memArg flags offset = .error .InvalidAlignment ↔ 32 ≤ flags) ∧
    (∀ a, memArg flags offset = .ok a →
      a.align = 1 <<< flags ∧ a.offset = offset) ∧
    (validateInstruction m funcId c (.I32Load flags offset) loc =
      loadOp m c flags offset .i32 loc) ∧
    (validateInstruction m funcId c (.I32Store flags offset) loc =
      storeOp m c flags offset .i32 loc) ∧
    (∀ t c₁ mem, c.popOperandExpected (some .i32) = .ok (t, c₁) →
      m.getMemory 0 = .ok mem →
      (loadOp m c flags offset ty loc = .error .InvalidAlignment ↔
        32 ≤ flags)) ∧
    (∀ c', loadOp m c flags offset ty loc = .ok c' →
      ¬ 32 ≤ flags ∧ ∃ t c₁ mem g gs,
        c.popOperandExpected (some .i32) = .ok (t, c₁) ∧
        m.getMemory 0 = .ok mem ∧ c₁.controls = g :: gs ∧
        c' = Ctx.pushOperand { c₁ with arena := appendAt c₁.arena g.block (Instr.Load ⟨1 <<< flags, offset⟩ ty mem, loc) } (some ty)) ∧
    (∀ c', storeOp m c flags offset ty loc = .ok c' →
      ¬ 32 ≤ flags ∧ ∃ t₁ c₁ t₂ c₂ mem g gs,
        c.popOperandExpected (some ty) = .ok (t₁, c₁) ∧
        c₁.popOperandExpected (some .i32) = .ok (t₂, c₂) ∧
        m.getMemory 0 = .ok mem ∧ c₂.controls = g :: gs ∧
        c' = { c₂ with arena := appendAt c₂.arena g.block (Instr.Store ⟨1 <<< flags, offset⟩ ty mem, loc) }) := by
  have hshift : (1 : Nat) <<< flags = 2 ^ flags := by
    rw [Nat.shiftLeft_eq, one_mul]
  refine ⟨?_, ?_, rfl, rfl, ?_, ?_, ?_⟩
  · unfold memArg
    split
    · simp_all
    · simp_all
  · intro a ha
    unfold memArg at ha
    split at ha
    · exact Except.noConfusion ha
    · injection ha with h1
      subst h1
      exact ⟨hshift.symm, rfl⟩
  · intro t c₁ mem hp hm
    unfold loadOp
    rw [hp, hm]
    dsimp only
    by_cases hf : 32 ≤ flags
    · have hma : memArg flags offset = .error .InvalidAlignment := by
        unfold memArg; simp [hf]
      rw [hma]
      dsimp only
      simp [hf]
    · have hma : memArg flags offset = .ok ⟨2 ^ flags, offset⟩ := by
        unfold memArg; simp [hf]
      rw [hma]
      dsimp only
      cases ha : c₁.allocInstr (.Load ⟨2 ^ flags, offset⟩ ty mem) loc with
      | error e =>
        have he := Ctx.allocInstr_err ha
        subst he
        simp [hf]
      | ok c₂ => simp [hf]
  · intro c' h
    unfold loadOp at h
    cases hp : c.popOperandExpected (some ValType.i32) with
    | error e => rw [hp] at h; exact Except.noConfusion h
    | ok p =>
      obtain ⟨t, c₁⟩ := p
      rw [hp] at h
      dsimp only at h
      cases hm : m.getMemory 0 with
      | error e => rw [hm] at h; exact Except.noConfusion h
      | ok mem =>
        rw [hm] at h
        dsimp only at h
        by_cases hf : 32 ≤ flags
        · have hma : memArg flags offset = .error .InvalidAlignment := by
            unfold memArg; simp [hf]
          rw [hma] at h
          exact Except.noConfusion h
        · have hma : memArg flags offset = .ok ⟨2 ^ flags, offset⟩ := by
            unfold memArg; simp [hf]
          rw [hma] at h
          dsimp only at h
          cases ha : c₁.allocInstr (.Load ⟨2 ^ flags, offset⟩ ty mem) loc with
          | error e => rw [ha] at h; exact Except.noConfusion h
          | ok c₂ =>
            rw [ha] at h
            injection h with h1
            obtain ⟨g, gs, hg, hc2⟩ := Ctx.allocInstr_ok ha
            refine ⟨hf, t, c₁, mem, g, gs, rfl, rfl, hg, ?_⟩
            rw [← h1, hc2, hshift]
  · intro c' h
    unfold storeOp at h
    cases hp1 : c.popOperandExpected (some ty) with
    | error e => rw [hp1] at h; exact Except.noConfusion h
    | ok p =>
      obtain ⟨t₁, c₁⟩ := p
      rw [hp1] at h
      dsimp only at h
      cases hp2 : c₁.popOperandExpected (some ValType.i32) with
      | error e => rw [hp2] at h; exact Except.noConfusion h
      | ok p2 =>
        obtain ⟨t₂, c₂⟩ := p2
        rw [hp2] at h
        dsimp only at h
        cases hm : m.getMemory 0 with
        | error e => rw [hm] at h; exact Except.noConfusion h
        | ok mem =>
          rw [hm] at h
          dsimp only at h
          by_cases hf : 32 ≤ flags
          · have hma : memArg flags offset = .error .InvalidAlignment := by
              unfold memArg; simp [hf]
            rw [hma] at h
            exact Except.noConfusion h
          · have hma : memArg flags offset = .ok ⟨2 ^ flags, offset⟩ := by
              unfold memArg; simp [hf]
            rw [hma] at h
            dsimp only at h
            obtain ⟨g, gs, hg, hc3⟩ := Ctx.allocInstr_ok h
            refine ⟨hf, t₁, c₁, t₂, c₂, mem, g, gs, rfl, hp2, rfl, hg, ?_⟩
            rw [hc3, hshift]

/-- Witness for C7: at `flags = 40` the load rejects with `InvalidAlignment`;
at `flags = 2` the decoded alignment is `1 <<< 2`. -/
theorem c7_witness :
    loadOp exMemModule exMemCtx 40 0 ValType.i32 7 =
      Except.error Err.InvalidAlignment ∧
    (⟨4, 5⟩ : MemArg).align = 1 <<< 2 ∧ (⟨4, 5⟩ : MemArg).offset = 5 := by
  have h := c7_mem_arg_alignment exMemModule 0 exMemCtx 40 0 7 ValType.i32
  have h2 := c7_mem_arg_alignment exMemModule 0 exMemCtx 2 5 7 ValType.i32
  refine ⟨?_, h2.2.1 ⟨4, 5⟩ (by rfl)⟩
  exact (h.2.2.2.2.1 (some .i32) exMemCtx1 0 (by rfl) (by rfl)).mpr
    (by decide)

theorem Ctx.popControl_ok {c : Ctx} {frame : ControlFrame} {c' : Ctx}
    (h : c.popControl = .ok (frame, c')) :
    ∃ gs c₁, c.controls = frame :: gs ∧
      c.popOperands frame.endTypes = .ok c₁ ∧
      c₁.operands.length = frame.height ∧
      c' = { c₁ with controls := c₁.controls.tail } ∧
      c'.controls = gs ∧ c'.ifElse = c.ifElse ∧ c'.arena = c.arena := by
  unfold Ctx.popControl at h
  cases hc : c.controls with
  | nil => rw [hc] at h; exact Except.noConfusion h
  | cons g gs =>
    rw [hc] at h
    dsimp only at h
    cases hp : c.popOperands g.endTypes with
    | error e => rw [hp] at h; exact Except.noConfusion h
    | ok c₁ =>
      rw [hp] at h
      dsimp only at h
      split at h
      · rename_i hlen
        injection h with h1
        injection h1 with h2 h3
        subst h2
        subst h3
        have hs := Ctx.popOperands_state hp
        refine ⟨gs, c₁, rfl, hp, hlen, rfl, ?_, hs.2.1, hs.2.2⟩
        show c₁.controls.tail = gs
        rw [hs.1, hc]
        rfl
      · exact Except.noConfusion h

/-- C1 counterexample: the body `i32.const 42; end` of a `() -> i32` function
is accepted by `parse`, and after its terminating `end` the control stack is
empty but the operand stack holds the result type `i32` — it is not empty, so
the claim's "the operand stack is empty" fails on this input. -/
theorem c1_counterexample :
    parse exI32Module 0 0 exI32Ops =
      .ok ⟨0, [[(.Const (.I32 42), 0)]]⟩ ∧
    parseRun exI32Module 0 0 exI32Ops =
      .ok (0, ⟨[some .i32], [], [], [[(.Const (.I32 42), 0)]]⟩) ∧
    [some ValType.i32] ≠ ([] : List (Option ValType)) :=
  ⟨rfl, rfl, by decide⟩

/-- C1 (amended): for every accepted body the control stack is empty at the
end and the operand stack holds exactly the function's result types (so it is
empty only when the function returns no values); processing the terminating
`end` of the function-entry frame empties the control stack and leaves the
frame's `end_types` on the operand stack; and if the operator source is
exhausted while control frames remain open, `parse` fails with
`UnexpectedEof`. -/
theorem c1_end_of_body (m : Module) (funcId tyId : Nat)
    (ops : List (Operator × Nat)) :
    (∀ entry cf, parseRun m funcId tyId ops = .ok (entry, cf) →
      cf.controls ≠ [] → parse m funcId tyId ops = .error .UnexpectedEof) ∧
    (∀ entry cf pf, parseRun m funcId tyId ops = .ok (entry, cf) →
      parse m funcId tyId ops = .ok pf → cf.controls = []) ∧
    (∀ c c' frame loc, c.controls = [frame] → frame.kind = .FunctionEntry →
      frame.height = 0 → validateInstruction m funcId c .End loc = .ok c' →
      c'.controls = [] ∧ c'.operands = (frame.endTypes.map some).reverse) := by
  refine ⟨?_, ?_, ?_⟩
  · intro entry cf hrun hne
    unfold parse
    rw [hrun]
    dsimp only
    rw [if_neg]
    simpa [List.isEmpty_iff] using hne
  · intro entry cf pf hrun hp
    unfold parse at hp
    rw [hrun] at hp
    dsimp only at hp
    split at hp
    · rename_i he
      simpa [List.isEmpty_iff] using he
    · exact Except.noConfusion hp
  · intro c c' frame loc hc hk hh h
    have hv : validateInstruction m funcId c .End loc = validateEnd c loc := rfl
    rw [hv] at h
    unfold validateEnd at h
    cases hpc : c.popControl with
    | error e => rw [hpc] at h; exact Except.noConfusion h
    | ok p =>
      obtain ⟨frame', cmid⟩ := p
      rw [hpc] at h
      dsimp only at h
      obtain ⟨gs, c₁, hcs, hpops, hlen, hcm, hcmc, hcmi, hcma⟩ :=
        Ctx.popControl_ok hpc
      rw [hc] at hcs
      injection hcs with hfr hgs
      subst hfr
      rw [hk] at h
      dsimp only at h
      injection h with h1
      subst h1
      have hps := @Ctx.pushOperands_state frame.endTypes cmid
      have hcm0 : cmid.operands = [] := by
        have : cmid.operands.length = 0 := by
          rw [hcm]
          simpa [hh] using hlen
        exact List.length_eq_zero.mp this
      constructor
      · rw [hps.2.1, hcmc, ← hgs]
      · rw [hps.1, hcm0, List.append_nil]

/-- Witness for C1: an empty body (no `end`) of the `() -> i32` function is
rejected with `UnexpectedEof`, and the terminating `end` of `exEndCtx` leaves
an empty control stack and the result type on the operand stack. -/
theorem c1_witness :
    parse exI32Module 0 0 [] = Except.error Err.UnexpectedEof ∧
    exEndCtx'.controls = [] ∧ exEndCtx'.operands = [some ValType.i32] := by
  have h := c1_end_of_body exI32Module 0 0 []
  have h3 := (c1_end_of_body exI32Module 0 0 []).2.2 exEndCtx exEndCtx'
    exEntryFrame 1 rfl rfl rfl rfl
  exact ⟨h.1 0 ⟨[], [exEntryFrame], [], [[]]⟩ rfl (by decide), h3.1, h3.2⟩

theorem Ctx.pushControl_ok {c : Ctx} {kind : BlockKind}
    {st en : List ValType} {seq : Nat} {c' : Ctx}
    (h : c.pushControl kind st en = .ok (seq, c')) :
    ∃ c₁, c.popOperands st = .ok c₁ ∧ seq = c₁.arena.length ∧
      c' = Ctx.pushOperands
        ⟨c₁.operands,
         ⟨kind, st, en, c₁.operands.length, false, seq⟩ :: c₁.controls,
         c₁.ifElse, c₁.arena ++ [[]]⟩ st ∧
      c'.controls =
        ⟨kind, st, en, c₁.operands.length, false, seq⟩ :: c₁.controls ∧
      c'.ifElse = c.ifElse ∧
      c'.arena = c₁.arena ++ [[]] ∧
      c₁.controls = c.controls ∧ c₁.ifElse = c.ifElse ∧ c₁.arena = c.arena := by
  unfold Ctx.pushControl at h
  cases hp : c.popOperands st with
  | error e => rw [hp] at h; exact Except.noConfusion h
  | ok c₁ =>
    rw [hp] at h
    dsimp only at h
    injection h with h1
    injection h1 with h2 h3
    subst h2
    subst h3
    have hs := Ctx.popOperands_state hp
    have hps := @Ctx.pushOperands_state st
      ⟨c₁.operands,
       ⟨kind, st, en, c₁.operands.length, false, c₁.arena.length⟩ ::
         c₁.controls,
       c₁.ifElse, c₁.arena ++ [[]]⟩
    exact ⟨c₁, rfl, rfl, rfl, hps.2.1, hps.2.2.1.trans hs.2.1,
      hps.2.2.2, hs.1, hs.2.1, hs.2.2⟩

/-- C4: validating `else` fails with a stray-else error whenever the popped
frame is not of kind `If` (covering both `else` without `if` and a second
`else`, since the first `else` replaces the `If` frame by an `Else` frame);
on success it pushes an `Else` frame carrying the popped frame's start and end
types and records the fresh alternative sequence id in the top if/else
record. -/
theorem c4_stray_else (m : Module) (funcId : Nat) (c c' : Ctx) (loc : Nat)
    (frame : ControlFrame) (cmid : Ctx)
    (hpc : c.popControl = .ok (frame, cmid)) :
    (validateInstruction m funcId c .Else loc = validateElse c loc) ∧
    (frame.kind ≠ .If → validateElse c loc = .error .StrayElse) ∧
    (validateElse c loc = .ok c' →
      frame.kind = .If ∧ ∃ alt cpush st rest,
        cmid.pushControl .Else frame.startTypes frame.endTypes =
          .ok (alt, cpush) ∧
        (∃ h₀, cpush.controls.head? = some
          ⟨.Else, frame.startTypes, frame.endTypes, h₀, false, alt⟩) ∧
        cpush.ifElse = st :: rest ∧ st.alternative = none ∧
        c' = { cpush with
          ifElse := { st with alternative := some alt } :: rest }) := by
  refine ⟨rfl, ?_, ?_⟩
  · intro hne
    unfold validateElse
    rw [hpc]
    dsimp only
    cases hfk : frame.kind with
    | If => exact absurd hfk hne
    | FunctionEntry => rfl
    | Block => rfl
    | Loop => rfl
    | Else => rfl
  · intro hok
    unfold validateElse at hok
    rw [hpc] at hok
    dsimp only at hok
    cases hfk : frame.kind with
    | FunctionEntry => rw [hfk] at hok; exact Except.noConfusion hok
    | Block => rw [hfk] at hok; exact Except.noConfusion hok
    | Loop => rw [hfk] at hok; exact Except.noConfusion hok
    | Else => rw [hfk] at hok; exact Except.noConfusion hok
    | If =>
      rw [hfk] at hok
      dsimp only at hok
      cases hpush : cmid.pushControl .Else frame.startTypes frame.endTypes with
      | error e => rw [hpush] at hok; exact Except.noConfusion hok
      | ok p =>
        obtain ⟨alt, cpush⟩ := p
        rw [hpush] at hok
        dsimp only at hok
        cases hie : cpush.ifElse with
        | nil => rw [hie] at hok; exact Except.noConfusion hok
        | cons st rest =>
          rw [hie] at hok
          dsimp only at hok
          split at hok
          · exact Except.noConfusion hok
          · rename_i hna
            injection hok with h1
            obtain ⟨c₁, _, hseq, _, hctrl, _, _, _, _, _⟩ :=
              Ctx.pushControl_ok hpush
            refine ⟨rfl, alt, cpush, st, rest, rfl, ?_, hie, ?_, h1.symm⟩
            · exact ⟨_, by rw [hctrl]; rfl⟩
            · exact Option.not_isSome_iff_eq_none.mp hna

/-- Witness for C4: a top-level `else` is rejected as stray; an `else` closing
an `If` frame succeeds and the popped frame indeed had kind `If`. -/
theorem c4_witness :
    validateElse exStrayCtx 7 = Except.error Err.StrayElse ∧
    validateElse exIfCtx 7 = Except.ok exIfCtx' ∧
    (⟨.If, [], [], 0, false, 1⟩ : ControlFrame).kind = .If := by
  refine ⟨(c4_stray_else exI32Module 0 exStrayCtx exIfCtx' 7
      ⟨.FunctionEntry, [], [], 0, false, 0⟩ ⟨[], [], [], [[]]⟩ rfl).2.1
      (by decide), rfl, ?_⟩
  exact ((c4_stray_else exI32Module 0 exIfCtx exIfCtx' 7
    ⟨.If, [], [], 0, false, 1⟩
    ⟨[], [⟨.FunctionEntry, [], [], 0, false, 0⟩], [⟨1, none⟩], [[], []]⟩
    rfl).2.2 rfl).1

/-- C8: a successful `br_if n` pops an `i32`, pops the `n`-th frame's label
types, appends exactly one `BrIf` node targeting that frame's sequence to the
current sequence, and pushes the same label types back, so the label-type
values are on the operand stack again, only the `i32` condition has been
consumed, and the control stack — including every unreachable flag — is
exactly as before. -/
theorem c8_br_if (m : Module) (funcId : Nat) (c c' : Ctx) (n loc : Nat)
    (h : validateInstruction m funcId c (.BrIf n) loc = .ok c') :
    ∃ t c₁ f c₂ g gs,
      c.popOperandExpected (some .i32) = .ok (t, c₁) ∧
      c₁.control n = .ok f ∧
      c₁.popOperands f.labelTypes = .ok c₂ ∧
      c.controls = g :: gs ∧
      c'.controls = c.controls ∧
      c'.ifElse = c.ifElse ∧
      c'.operands = (f.labelTypes.map some).reverse ++ c₂.operands ∧
      c'.arena = appendAt c.arena g.block (.BrIf f.block, loc) := by
  unfold validateInstruction at h
  dsimp only at h
  cases hp : c.popOperandExpected (some ValType.i32) with
  | error e => rw [hp] at h; exact Except.noConfusion h
  | ok p =>
    obtain ⟨t, c₁⟩ := p
    rw [hp] at h
    dsimp only at h
    cases hf : c₁.control n with
    | error e => rw [hf] at h; exact Except.noConfusion h
    | ok f =>
      rw [hf] at h
      dsimp only at h
      cases hpo : c₁.popOperands f.labelTypes with
      | error e => rw [hpo] at h; exact Except.noConfusion h
      | ok c₂ =>
        rw [hpo] at h
        dsimp only at h
        have hpop := Ctx.popOperands_state hpo
        have hpe := Ctx.popOperandExpected_state hp
        have hf2 : c₂.control n = .ok f := by
          rw [Ctx.control_congr hpop.1]
          exact hf
        rw [hf2] at h
        dsimp only at h
        cases hal : c₂.allocInstr (.BrIf f.block) loc with
        | error e => rw [hal] at h; exact Except.noConfusion h
        | ok c₃ =>
          rw [hal] at h
          dsimp only at h
          injection h with h1
          obtain ⟨g, gs, hg, hc3⟩ := Ctx.allocInstr_ok hal
          have hc2c : c₂.controls = c.controls := hpop.1.trans hpe.1
          have hps := @Ctx.pushOperands_state f.labelTypes c₃
          refine ⟨t, c₁, f, c₂, g, gs, rfl, hf, hpo, hc2c ▸ hg, ?_, ?_, ?_, ?_⟩
          · rw [← h1, hps.2.1, hc3]
            exact hc2c
          · rw [← h1, hps.2.2.1, hc3]
            exact hpop.2.1.trans hpe.2.1
          · rw [← h1, hps.1, hc3]
          · rw [← h1, hps.2.2.2, hc3]
            show appendAt c₂.arena g.block (.BrIf f.block, loc) =
              appendAt c.arena g.block (.BrIf f.block, loc)
            rw [hpop.2.2.trans hpe.2.2]

/-- Witness for C8: `br_if 0` succeeds on `exBrIfCtx`, one `i32` is consumed,
the label types remain on the stack and the control stack is unchanged. -/
theorem c8_witness :
    validateInstruction exI32Module 0 exBrIfCtx (.BrIf 0) 9 =
      Except.ok exBrIfCtx' ∧
    exBrIfCtx'.controls = exBrIfCtx.controls := by
  obtain ⟨t, c₁, f, c₂, g, gs, hp, hf, hpo, hg, hc, hi, ho, ha⟩ :=
    c8_br_if exI32Module 0 exBrIfCtx exBrIfCtx' 0 9 rfl
  exact ⟨rfl, hc⟩

/-- C3: when `end` closes an `If` frame with no recorded alternative, the
validator synthesizes an empty alternative (pushing then popping an `Else`
frame with the frame's start/end types — the fresh sequence stays empty) and
appends a single `IfElse` node, whose alternative is that empty sequence, to
the sequence of the frame on top of the control stack after the pop; for an
`Else` frame it appends `IfElse` with the recorded consequent and alternative;
in all cases the popped frame's `end_types` are pushed afterwards. -/
theorem c3_end_if_else (m : Module) (funcId : Nat) (c c' : Ctx) (loc : Nat)
    (frame : ControlFrame) (cmid : Ctx)
    (hpc : c.popControl = .ok (frame, cmid)) :
    (validateInstruction m funcId c .End loc = validateEnd c loc) ∧
    (∀ st rest, frame.kind = .If → cmid.ifElse = st :: rest →
      st.alternative = none → validateEnd c loc = .ok c' →
      ∃ alt g gs,
        alt = cmid.arena.length ∧
        cmid.controls = g :: gs ∧
        c'.controls = cmid.controls ∧
        c'.ifElse = rest ∧
        c'.arena =
          appendAt (cmid.arena ++ [[]]) g.block
            (.IfElse st.consequent alt, loc) ∧
        (g.block < cmid.arena.length → c'.arena.get? alt = some []) ∧
        (∃ base, c'.operands = (frame.endTypes.map some).reverse ++ base)) ∧
    (∀ st rest alt, frame.kind = .Else → cmid.ifElse = st :: rest →
      st.alternative = some alt → validateEnd c loc = .ok c' →
      ∃ g gs,
        cmid.controls = g :: gs ∧
        c'.controls = cmid.controls ∧
        c'.ifElse = rest ∧
        c'.arena = appendAt cmid.arena g.block
          (.IfElse st.consequent alt, loc) ∧
        (∃ base, c'.operands = (frame.endTypes.map some).reverse ++ base)) ∧
    (frame.kind = .FunctionEntry → validateEnd c loc = .ok c' →
      c' = cmid.pushOperands frame.endTypes) := by
  refine ⟨rfl, ?_, ?_, ?_⟩
  · intro st rest hfk hie hna hok
    unfold validateEnd at hok
    rw [hpc] at hok
    dsimp only at hok
    rw [hfk] at hok
    dsimp only at hok
    rw [hie] at hok
    dsimp only at hok
    rw [hna] at hok
    dsimp only at hok
    cases hpush : Ctx.pushControl
        ⟨cmid.operands, cmid.controls, rest, cmid.arena⟩
        .Else frame.startTypes frame.endTypes with
    | error e => rw [hpush] at hok; exact Except.noConfusion hok
    | ok p =>
      obtain ⟨alt, cpush⟩ := p
      rw [hpush] at hok
      dsimp only at hok
      cases hpop : cpush.popControl with
      | error e => rw [hpop] at hok; exact Except.noConfusion hok
      | ok p2 =>
        obtain ⟨fr2, cpop⟩ := p2
        rw [hpop] at hok
        dsimp only at hok
        cases hal : cpop.allocInstr (.IfElse st.consequent alt) loc with
        | error e => rw [hal] at hok; exact Except.noConfusion hok
        | ok c₃ =>
          rw [hal] at hok
          dsimp only at hok
          injection hok with h1
          obtain ⟨c₁, hpops, hseq, _, hcc, hci, hca, hc₁c, hc₁i, hc₁a⟩ :=
            Ctx.pushControl_ok hpush
          obtain ⟨gs2, c₄, hpcs, _, _, hcpop, hcpc, hcpi, hcpa⟩ :=
            Ctx.popControl_ok hpop
          obtain ⟨g, gs, hg, hc3⟩ := Ctx.allocInstr_ok hal
          have hgs2 : gs2 = c₁.controls := by
            rw [hcc] at hpcs
            injection hpcs with h2 h3
            exact h3.symm
          have hcpopc : cpop.controls = cmid.controls := by
            rw [hcpc, hgs2, hc₁c]
          have haltv : alt = cmid.arena.length := by
            rw [hseq, hc₁a]
          have hcparena : cpop.arena = cmid.arena ++ [[]] := by
            rw [hcpa, hca, hc₁a]
          have hps := @Ctx.pushOperands_state frame.endTypes c₃
          refine ⟨alt, g, gs, haltv, hcpopc ▸ hg, ?_, ?_, ?_, ?_, ?_⟩
          · rw [← h1, hps.2.1, hc3]
            exact hcpopc
          · rw [← h1, hps.2.2.1, hc3]
            rw [hcpi, hci]
          · rw [← h1, hps.2.2.2, hc3, hcparena]
          · intro hlt
            rw [← h1, hps.2.2.2, hc3, hcparena]
            show (((cmid.arena ++ [[]]).set g.block _).get? alt) = some []
            rw [List.get?_set_ne _ _ (by omega)]
            rw [haltv]
            exact List.get?_concat_length _ _
          · exact ⟨c₃.operands, by rw [← h1, hps.1]⟩
  · intro st rest alt hfk hie hsa hok
    unfold validateEnd at hok
    rw [hpc] at hok
    dsimp only at hok
    rw [hfk] at hok
    dsimp only at hok
    rw [hie] at hok
    dsimp only at hok
    rw [hsa] at hok
    dsimp only at hok
    cases hal : Ctx.allocInstr
        ⟨cmid.operands, cmid.controls, rest, cmid.arena⟩
        (.IfElse st.consequent alt) loc with
    | error e => rw [hal] at hok; exact Except.noConfusion hok
    | ok c₃ =>
      rw [hal] at hok
      dsimp only at hok
      injection hok with h1
      obtain ⟨g, gs, hg, hc3⟩ := Ctx.allocInstr_ok hal
      have hps := @Ctx.pushOperands_state frame.endTypes c₃
      refine ⟨g, gs, hg, ?_, ?_, ?_, ?_⟩
      · rw [← h1, hps.2.1, hc3]
      · rw [← h1, hps.2.2.1, hc3]
      · rw [← h1, hps.2.2.2, hc3]
      · exact ⟨c₃.operands, by rw [← h1, hps.1]⟩
  · intro hfk hok
    unfold validateEnd at hok
    rw [hpc] at hok
    dsimp only at hok
    rw [hfk] at hok
    dsimp only at hok
    injection hok with h1
    exact h1.symm

/-- Witness for C3: the implicit-else `end` succeeds, pops the if/else record,
leaves the enclosing control stack, and the synthesized alternative sequence 2
is empty. -/
theorem c3_witness :
    validateEnd exEndIfCtx 5 = Except.ok exEndIfCtx' ∧
    exEndIfCtx'.ifElse = [] ∧
    exEndIfCtx'.controls = exEndIfCmid.controls ∧
    exEndIfCtx'.arena.get? 2 = some [] := by
  obtain ⟨_, hIf, _, _⟩ := c3_end_if_else exI32Module 0 exEndIfCtx exEndIfCtx'
    5 ⟨.If, [], [], 0, false, 1⟩ exEndIfCmid rfl
  obtain ⟨alt, g, gs, haltv, hgg, hcc, hci, hca, hempty, hbase⟩ :=
    hIf ⟨1, none⟩ [] rfl rfl rfl rfl
  have hgv : (⟨.FunctionEntry, [], [], 0, false, 0⟩ : ControlFrame) = g := by
    have hgg' : [(⟨.FunctionEntry, [], [], 0, false, 0⟩ : ControlFrame)] =
      g :: gs := hgg
    injection hgg' with h1 h2
  have hav : alt = 2 := haltv
  refine ⟨rfl, hci, hcc, ?_⟩
  have hemp := hempty (by rw [← hgv]; decide)
  rw [hav] at hemp
  exact hemp

theorem Ctx.unreachable_operands {c : Ctx} {g : ControlFrame}
    {gs : List ControlFrame} (h : c.controls = g :: gs) :
    c.unreachable.operands = c.operands.drop (c.operands.length - g.height) := by
  unfold Ctx.unreachable
  rw [h]

/-- The label loop of `br_table` fails exactly when some label resolves to a
frame whose label arity differs from the expected vector's, or to a reachable
frame whose label types differ from it element-wise; and the only error it
produces (when every label resolves) is the type mismatch. -/
theorem brTableCheck_spec (c : Ctx) (types : List ValType) :
    ∀ labels : List Nat, (∀ l ∈ labels, ∃ f, c.control l = .ok f) →
    ((brTableCheck c labels types = .error .TypeMismatch) ↔
      ∃ l ∈ labels, ∃ f, c.control l = .ok f ∧
        (f.labelTypes.length ≠ types.length ∨
         (f.unreachable = false ∧ f.labelTypes ≠ types))) ∧
    (∀ e, brTableCheck c labels types = .error e → e = .TypeMismatch) := by
  intro labels
  induction labels with
  | nil =>
    intro _
    constructor
    · constructor
      · intro h; exact absurd h (by simp [brTableCheck])
      · rintro ⟨l, hl, _⟩; exact absurd hl (List.not_mem_nil l)
    · intro e he; exact absurd he (by simp [brTableCheck])
  | cons label rest ih =>
    intro hres
    obtain ⟨f, hf⟩ := hres label (List.mem_cons_self _ _)
    have hres' : ∀ l ∈ rest, ∃ f, c.control l = .ok f := fun l hl =>
      hres l (List.mem_cons_of_mem _ hl)
    obtain ⟨ih1, ih2⟩ := ih hres'
    have hstep : brTableCheck c (label :: rest) types =
        (if f.labelTypes.length ≠ types.length then .error .TypeMismatch
         else if f.unreachable then
           match brTableCheck c rest types with
           | .error e => .error e
           | .ok bs => .ok (f.block :: bs)
         else if f.labelTypes = types then
           match brTableCheck c rest types with
           | .error e => .error e
           | .ok bs => .ok (f.block :: bs)
         else .error .TypeMismatch) := by
      conv_lhs => unfold brTableCheck
      rw [hf]
    by_cases hlen : f.labelTypes.length = types.length
    · rw [if_neg (by simpa using hlen)] at hstep
      by_cases hunr : f.unreachable = true
      · rw [if_pos hunr] at hstep
        cases hrec : brTableCheck c rest types with
        | error e =>
          have he := ih2 e hrec
          subst he
          rw [hrec] at hstep
          constructor
          · constructor
            · intro _
              obtain ⟨l, hl, f', hrest⟩ := ih1.mp hrec
              exact ⟨l, List.mem_cons_of_mem _ hl, f', hrest⟩
            · intro _
              exact hstep
          · intro e he
            rw [hstep] at he
            injection he with h1
            exact h1.symm
        | ok bs =>
          rw [hrec] at hstep
          constructor
          · constructor
            · intro hbad
              rw [hstep] at hbad
              exact Except.noConfusion hbad
            · rintro ⟨l, hl, f', hf', hbad⟩
              rcases List.mem_cons.mp hl with hl1 | hl2
              · subst hl1
                rw [hf] at hf'
                injection hf' with h1
                subst h1
                rcases hbad with h2 | h2
                · exact absurd hlen h2
                · rw [hunr] at h2
                  exact Bool.noConfusion h2.1
              · have := ih1.mpr ⟨l, hl2, f', hf', hbad⟩
                rw [hrec] at this
                exact Except.noConfusion this
          · intro e he
            rw [hstep] at he
            exact Except.noConfusion he
      · rw [if_neg hunr] at hstep
        by_cases heq : f.labelTypes = types
        · rw [if_pos heq] at hstep
          cases hrec : brTableCheck c rest types with
          | error e =>
            have he := ih2 e hrec
            subst he
            rw [hrec] at hstep
            constructor
            · constructor
              · intro _
                obtain ⟨l, hl, f', hrest⟩ := ih1.mp hrec
                exact ⟨l, List.mem_cons_of_mem _ hl, f', hrest⟩
              · intro _
                exact hstep
            · intro e he
              rw [hstep] at he
              injection he with h1
              exact h1.symm
          | ok bs =>
            rw [hrec] at hstep
            constructor
            · constructor
              · intro hbad
                rw [hstep] at hbad
                exact Except.noConfusion hbad
              · rintro ⟨l, hl, f', hf', hbad⟩
                rcases List.mem_cons.mp hl with hl1 | hl2
                · subst hl1
                  rw [hf] at hf'
                  injection hf' with h1
                  subst h1
                  rcases hbad with h2 | h2
                  · exact absurd hlen h2
                  · exact absurd heq h2.2
                · have := ih1.mpr ⟨l, hl2, f', hf', hbad⟩
                  rw [hrec] at this
                  exact Except.noConfusion this
            · intro e he
              rw [hstep] at he
              exact Except.noConfusion he
        · rw [if_neg heq] at hstep
          constructor
          · constructor
            · intro _
              refine ⟨label, List.mem_cons_self _ _, f, hf, .inr ⟨?_, heq⟩⟩
              exact Bool.not_eq_true _ ▸ (by simpa using hunr)
            · intro _
              exact hstep
          · intro e he
            rw [hstep] at he
            injection he with h1
            exact h1.symm
    · rw [if_pos (by simpa using hlen)] at hstep
      constructor
      · constructor
        · intro _
          exact ⟨label, List.mem_cons_self _ _, f, hf, .inl hlen⟩
        · intro _
          exact hstep
      · intro e he
        rw [hstep] at he
        injection he with h1
        exact h1.symm

/-- C2: `br_table {labels, default}` fails with a type-mismatch error exactly
when some label's frame has a label-type vector of different arity than the
default's, or a reachable label's frame has a label-type vector not equal to
it element-wise (unreachable frames skip the element check but not the arity
check); on success the validator pops an `i32` selector, pops the default's
label types, appends a `BrTable` node and marks the current frame
unreachable, truncating the operand stack to its height. -/
theorem c2_br_table (m : Module) (funcId : Nat) (c c' : Ctx)
    (labels : List Nat) (default loc : Nat) (df : ControlFrame)
    (hdf : c.control default = .ok df)
    (hres : ∀ l ∈ labels, ∃ f, c.control l = .ok f) :
    (validateInstruction m funcId c (.BrTable labels default) loc =
      validateBrTable c labels default loc) ∧
    ((brTableCheck c labels df.labelTypes = .error .TypeMismatch) ↔
      ∃ l ∈ labels, ∃ f, c.control l = .ok f ∧
        (f.labelTypes.length ≠ df.labelTypes.length ∨
         (f.unreachable = false ∧ f.labelTypes ≠ df.labelTypes))) ∧
    (brTableCheck c labels df.labelTypes = .error .TypeMismatch →
      validateBrTable c labels default loc = .error .TypeMismatch) ∧
    (validateBrTable c labels default loc = .ok c' →
      ∃ blocks t c₁ c₂ g gs,
        brTableCheck c labels df.labelTypes = .ok blocks ∧
        c.popOperandExpected (some .i32) = .ok (t, c₁) ∧
        c₁.popOperands df.labelTypes = .ok c₂ ∧
        c₂.controls = g :: gs ∧ c₂.controls = c.controls ∧
        c'.controls = { g with unreachable := true } :: gs ∧
        c'.ifElse = c.ifElse ∧
        c'.operands = c₂.operands.drop (c₂.operands.length - g.height) ∧
        c'.arena = appendAt c.arena g.block (.BrTable blocks df.block, loc)) := by
  refine ⟨rfl, (brTableCheck_spec c df.labelTypes labels hres).1, ?_, ?_⟩
  · intro hchk
    unfold validateBrTable
    rw [hdf]
    dsimp only
    rw [hchk]
  · intro hok
    unfold validateBrTable at hok
    rw [hdf] at hok
    dsimp only at hok
    cases hchk : brTableCheck c labels df.labelTypes with
    | error e => rw [hchk] at hok; exact Except.noConfusion hok
    | ok blocks =>
      rw [hchk] at hok
      dsimp only at hok
      cases hp : c.popOperandExpected (some ValType.i32) with
      | error e => rw [hp] at hok; exact Except.noConfusion hok
      | ok p =>
        obtain ⟨t, c₁⟩ := p
        rw [hp] at hok
        dsimp only at hok
        cases hpo : c₁.popOperands df.labelTypes with
        | error e => rw [hpo] at hok; exact Except.noConfusion hok
        | ok c₂ =>
          rw [hpo] at hok
          dsimp only at hok
          cases hal : c₂.allocInstr (.BrTable blocks df.block) loc with
          | error e => rw [hal] at hok; exact Except.noConfusion hok
          | ok c₃ =>
            rw [hal] at hok
            dsimp only at hok
            injection hok with h1
            obtain ⟨g, gs, hg, hc3⟩ := Ctx.allocInstr_ok hal
            have hpe := Ctx.popOperandExpected_state hp
            have hpop := Ctx.popOperands_state hpo
            have hc2c : c₂.controls = c.controls := hpop.1.trans hpe.1
            have hc3g : c₃.controls = g :: gs := by rw [hc3]; exact hg
            have hun := Ctx.unreachable_controls hc3g
            have huno := Ctx.unreachable_operands hc3g
            refine ⟨blocks, t, c₁, c₂, g, gs, rfl, rfl, hpo, hg, hc2c,
              ?_, ?_, ?_, ?_⟩
            · rw [← h1, hun.1]
            · rw [← h1, hun.2.1, hc3]
              exact hpop.2.1.trans hpe.2.1
            · rw [← h1, huno, hc3]
            · rw [← h1, hun.2.2, hc3]
              show appendAt c₂.arena g.block _ = appendAt c.arena g.block _
              rw [hpop.2.2.trans hpe.2.2]

/-- Witness for C2 (scenario S4): `br_table [1,0] 0` under label types `[i64]`
(default) and `[i32]` (label 1) is rejected with a type mismatch. -/
theorem c2_witness :
    validateBrTable exBrTblCtx [1, 0] 0 4 = Except.error Err.TypeMismatch ∧
    brTableCheck exBrTblCtx [1, 0] [ValType.i64] = Except.error Err.TypeMismatch := by
  have hres : ∀ l ∈ [1, 0], ∃ f, exBrTblCtx.control l = .ok f := by
    intro l hl
    rcases List.mem_cons.mp hl with h1 | h1
    · subst h1
      exact ⟨⟨.Block, [], [.i32], 1, false, 1⟩, rfl⟩
    · rcases List.mem_cons.mp h1 with h2 | h2
      · subst h2
        exact ⟨⟨.Block, [], [.i64], 2, false, 2⟩, rfl⟩
      · exact absurd h2 (List.not_mem_nil l)
  have h := c2_br_table exI32Module 0 exBrTblCtx exBrTblCtx [1, 0] 0 4
    ⟨.Block, [], [.i64], 2, false, 2⟩ rfl hres
  have hTM : brTableCheck exBrTblCtx [1, 0]
      (⟨.Block, [], [.i64], 2, false, 2⟩ : ControlFrame).labelTypes =
      .error .TypeMismatch := by
    refine h.2.1.mpr ⟨1, List.mem_cons_self _ _,
      ⟨.Block, [], [.i32], 1, false, 1⟩, rfl, .inr ⟨rfl, by decide⟩⟩
  exact ⟨h.2.2.1 hTM, hTM⟩

theorem mapLookup_eq_none : ∀ {entries : List (Nat × Nat)} {k : Nat},
    k ∉ entries.map Prod.fst → mapLookup entries k = none := by
  intro entries
  induction entries with
  | nil => intro k _; rfl
  | cons p rest ih =>
    intro k hk
    obtain ⟨a, v⟩ := p
    simp only [List.map_cons, List.mem_cons, not_or] at hk
    unfold mapLookup
    rw [ih hk.2]
    simp [hk.1]

theorem mapLookup_mem_keys : ∀ {entries : List (Nat × Nat)} {k : Nat},
    k ∈ entries.map Prod.fst → ∃ v, mapLookup entries k = some v := by
  intro entries
  induction entries with
  | nil => intro k hk; exact absurd hk (List.not_mem_nil k)
  | cons p rest ih =>
    intro k hk
    obtain ⟨a, v⟩ := p
    unfold mapLookup
    cases hr : mapLookup rest k with
    | some w => exact ⟨w, rfl⟩
    | none =>
      simp only [List.map_cons, List.mem_cons] at hk
      rcases hk with h1 | h2
      · subst h1
        exact ⟨v, by simp⟩
      · obtain ⟨w, hw⟩ := ih h2
        rw [hw] at hr
        exact Option.noConfusion hr

theorem mapLookup_append : ∀ (e₁ e₂ : List (Nat × Nat)) (k : Nat),
    mapLookup (e₁ ++ e₂) k =
      match mapLookup e₂ k with
      | some v => some v
      | none => mapLookup e₁ k := by
  intro e₁
  induction e₁ with
  | nil =>
    intro e₂ k
    rw [List.nil_append]
    cases h : mapLookup e₂ k <;> simp [h, mapLookup]
  | cons p rest ih =>
    intro e₂ k
    obtain ⟨a, v⟩ := p
    have hstep : mapLookup ((a, v) :: (rest ++ e₂)) k =
        match mapLookup (rest ++ e₂) k with
        | some w => some w
        | none => if k = a then some v else none := rfl
    have hstep2 : mapLookup ((a, v) :: rest) k =
        match mapLookup rest k with
        | some w => some w
        | none => if k = a then some v else none := rfl
    show mapLookup ((a, v) :: (rest ++ e₂)) k = _
    rw [hstep, ih e₂ k]
    cases h : mapLookup e₂ k <;> cases h2 : mapLookup rest k <;>
      simp [h, h2, hstep2]

theorem assignIdx_map_fst : ∀ (ls : List Nat) (n : Nat),
    (assignIdx n ls).map Prod.fst = ls := by
  intro ls
  induction ls with
  | nil => intro n; rfl
  | cons a tl ih =>
    intro n
    unfold assignIdx
    simp [ih]

theorem assignIdx_map_snd : ∀ (ls : List Nat) (n : Nat),
    (assignIdx n ls).map Prod.snd = List.range' n ls.length := by
  intro ls
  induction ls with
  | nil => intro n; rfl
  | cons a tl ih =>
    intro n
    unfold assignIdx
    simp [ih, List.range'_succ]

theorem assignIdx_lookup : ∀ (ls : List Nat), ls.Nodup → ∀ (n i : Nat)
    (hi : i < ls.length), mapLookup (assignIdx n ls) ls[i] = some (n + i) := by
  intro ls
  induction ls with
  | nil => intro _ n i hi; exact absurd hi (by simp)
  | cons a tl ih =>
    intro hnd n i hi
    rw [List.nodup_cons] at hnd
    cases i with
    | zero =>
      show mapLookup ((a, n) :: assignIdx (n + 1) tl) a = some n
      unfold mapLookup
      rw [mapLookup_eq_none (by rw [assignIdx_map_fst]; exact hnd.1)]
      simp
    | succ j =>
      have hj : j < tl.length := by simpa using hi
      show mapLookup ((a, n) :: assignIdx (n + 1) tl) tl[j] = some (n + (j + 1))
      unfold mapLookup
      rw [ih hnd.2 (n + 1) j hj]
      have : n + 1 + j = n + (j + 1) := by omega
      rw [this]

theorem tyToLocals_eq (m : Module) (args used : List Nat) :
    tyToLocals m args used =
      (allValTypes.filter fun ty =>
        !((used.filter fun l => !args.contains l).filter
            fun l => decide (m.localTy l = ty)).isEmpty).map
        fun ty => (ty, (used.filter fun l => !args.contains l).filter
            fun l => decide (m.localTy l = ty)) := by
  unfold tyToLocals
  rw [List.filter_map]
  rfl

theorem tyToLocals_flat_mem {m : Module} {args used : List Nat} {l : Nat}
    (h : l ∈ (tyToLocals m args used).flatMap (fun p => p.2)) :
    args.contains l = false ∧ l ∈ used := by
  rw [List.mem_flatMap] at h
  obtain ⟨p, hp, hl⟩ := h
  rw [tyToLocals_eq, List.mem_map] at hp
  obtain ⟨ty, _, hty⟩ := hp
  subst hty
  simp only [List.mem_filter] at hl
  obtain ⟨⟨hu, hna⟩, _⟩ := hl
  exact ⟨by simpa using hna, hu⟩

theorem assignIdx_length (ls : List Nat) (n : Nat) :
    (assignIdx n ls).length = ls.length := by
  have := congrArg List.length (assignIdx_map_fst ls n)
  simpa using this

/-- C5: `emit_locals` assigns index `i` to the `i`-th argument, all indices
are consecutive from zero, the remaining used non-argument locals are grouped
by type with each group sorted, well-typed, argument-free and drawn from the
used set, groups appear in strictly ascending type-key order, and the emitted
declaration is the group count followed by each group's `(count, type)`. -/
theorem c5_emit_locals_layout (m : Module) (f : LocalFunction)
    (setIter : List Nat) (hnd : f.args.Nodup) :
    (∀ i, ∀ hi : i < f.args.length,
      mapLookup (emitLocalsWith m f setIter).2.1 f.args[i] = some i) ∧
    ((emitLocalsWith m f setIter).2.1.map Prod.snd =
      List.range (emitLocalsWith m f setIter).2.1.length) ∧
    (∀ p ∈ tyToLocals m f.args (setIter.insertionSort (· ≤ ·)),
      p.2 ≠ [] ∧ List.Sorted (· ≤ ·) p.2 ∧
      ∀ l ∈ p.2, m.localTy l = p.1 ∧ l ∉ f.args ∧ l ∈ setIter) ∧
    (List.Pairwise (· < ·) ((tyToLocals m f.args
      (setIter.insertionSort (· ≤ ·))).map (fun p => p.1.key))) ∧
    ((emitLocalsWith m f setIter).2.2 =
      EncTok.usize (tyToLocals m f.args
          (setIter.insertionSort (· ≤ ·))).length ::
        (tyToLocals m f.args (setIter.insertionSort (· ≤ ·))).flatMap
          (fun p => [EncTok.usize p.2.length, EncTok.vt p.1])) := by
  refine ⟨?_, ?_, ?_, ?_, rfl⟩
  · intro i hi
    show mapLookup (assignIdx 0 f.args ++ assignIdx f.args.length
      ((tyToLocals m f.args (setIter.insertionSort (· ≤ ·))).flatMap
        (fun p => p.2))) f.args[i] = some i
    rw [mapLookup_append]
    have hnone : mapLookup (assignIdx f.args.length
        ((tyToLocals m f.args (setIter.insertionSort (· ≤ ·))).flatMap
          (fun p => p.2))) f.args[i] = none := by
      apply mapLookup_eq_none
      rw [assignIdx_map_fst]
      intro hmem
      have hcontra := (tyToLocals_flat_mem hmem).1
      have hin : f.args.contains f.args[i] = true := by
        simpa using List.getElem_mem hi
      rw [hin] at hcontra
      exact Bool.noConfusion hcontra
    rw [hnone]
    dsimp only
    simpa using assignIdx_lookup f.args hnd 0 i hi
  · have hmap : (emitLocalsWith m f setIter).2.1 =
        assignIdx 0 f.args ++ assignIdx f.args.length
          ((tyToLocals m f.args (setIter.insertionSort (· ≤ ·))).flatMap
            (fun p => p.2)) := rfl
    rw [hmap, List.map_append, assignIdx_map_snd, assignIdx_map_snd,
      List.length_append, assignIdx_length, assignIdx_length]
    have := List.range'_append 0 f.args.length
      ((tyToLocals m f.args (setIter.insertionSort (· ≤ ·))).flatMap
        (fun p => p.2)).length 1
    rw [List.range_eq_range']
    simpa [Nat.add_comm] using this
  · intro p hp
    rw [tyToLocals_eq, List.mem_map] at hp
    obtain ⟨ty, hty, rfl⟩ := hp
    rw [List.mem_filter] at hty
    refine ⟨?_, ?_, ?_⟩
    · intro hempty
      dsimp only at hempty
      rw [hempty] at hty
      simp at hty
    · exact List.Pairwise.sublist (List.filter_sublist _)
        (List.Pairwise.sublist (List.filter_sublist _)
          (List.sorted_insertionSort _ setIter))
    · intro l hl
      rw [List.mem_filter] at hl
      obtain ⟨hl1, hl2⟩ := hl
      rw [List.mem_filter] at hl1
      obtain ⟨hl3, hl4⟩ := hl1
      refine ⟨by simpa using hl2, ?_, ?_⟩
      · intro hmem
        have : f.args.contains l = true := by simpa using hmem
        rw [this] at hl4
        exact Bool.noConfusion hl4
      · exact (List.perm_insertionSort _ setIter).subset hl3
  · rw [tyToLocals_eq, List.map_map]
    have heq : ((fun p : ValType × List Nat => p.1.key) ∘
        (fun ty => (ty, ((setIter.insertionSort (· ≤ ·)).filter
          (fun l => !f.args.contains l)).filter
            (fun l => decide (m.localTy l = ty))))) =
        fun ty : ValType => ty.key := rfl
    rw [heq, List.pairwise_map]
    exact List.Pairwise.sublist (List.filter_sublist _) (by decide)

/-- C6: the result of `emit_locals` — the used set, the local index map and
the emitted bytes — does not depend on the iteration order of the used-locals
hash set: any two permutations of it produce identical output, so repeat runs
are byte-identical. -/
theorem c6_emit_locals_det (m : Module) (f : LocalFunction) (o₁ o₂ : List Nat)
    (hperm : o₁.Perm o₂) :
    emitLocalsWith m f o₁ = emitLocalsWith m f o₂ := by
  have hsort : o₁.insertionSort (· ≤ ·) = o₂.insertionSort (· ≤ ·) :=
    List.eq_of_perm_of_sorted
      ((List.perm_insertionSort _ o₁).trans
        (hperm.trans (List.perm_insertionSort _ o₂).symm))
      (List.sorted_insertionSort _ o₁)
      (List.sorted_insertionSort _ o₂)
  unfold emitLocalsWith
  rw [hsort]

/-- C9: the local index map contains an entry for every function argument —
including arguments never referenced in the body — while the returned used
set holds exactly the locals referenced by instructions, so the map's domain
can strictly exceed the used set (witnessed by a function with an unused
argument). -/
theorem c9_map_domain_vs_used (m : Module) (f : LocalFunction)
    (setIter : List Nat) :
    (∀ a ∈ f.args, ∃ v, mapLookup (emitLocalsWith m f setIter).2.1 a = some v) ∧
    (∀ l, l ∈ (emitLocals m f).1 ↔ l ∈ f.used_locals) ∧
    (∃ m₀ f₀, LocalFunction.used_locals f₀ = [] ∧ f₀.args = [5] ∧
      mapLookup (emitLocals m₀ f₀).2.1 5 = some 0 ∧ (emitLocals m₀ f₀).1 = []) := by
  refine ⟨?_, ?_, ?_⟩
  · intro a ha
    apply mapLookup_mem_keys
    have hmap : (emitLocalsWith m f setIter).2.1 =
        assignIdx 0 f.args ++ assignIdx f.args.length
          ((tyToLocals m f.args (setIter.insertionSort (· ≤ ·))).flatMap
            (fun p => p.2)) := rfl
    rw [hmap, List.map_append, assignIdx_map_fst]
    exact List.mem_append_left _ ha
  · intro l
    show l ∈ (f.used_locals.dedup.insertionSort (· ≤ ·)) ↔ _
    rw [(List.perm_insertionSort _ _).mem_iff, List.mem_dedup]
  · exact ⟨exI32Module, ⟨[5], 0, [[]]⟩, rfl, rfl, rfl, rfl⟩

/-- Witness for C5: at a concrete function the argument gets index 0 and the
index column is `range`. -/
theorem c5_witness :
    mapLookup (emitLocalsWith exLocModule exLocFunc [3, 2]).2.1 0 = some 0 ∧
    (emitLocalsWith exLocModule exLocFunc [3, 2]).2.1.map Prod.snd =
      List.range (emitLocalsWith exLocModule exLocFunc [3, 2]).2.1.length := by
  have h := c5_emit_locals_layout exLocModule exLocFunc [3, 2] (by decide)
  exact ⟨h.1 0 (by decide), h.2.1⟩

/-- Witness for C6: two permuted iteration orders give identical output. -/
theorem c6_witness :
    emitLocalsWith exLocModule exLocFunc [2, 3] =
      emitLocalsWith exLocModule exLocFunc [3, 2] :=
  c6_emit_locals_det exLocModule exLocFunc [2, 3] [3, 2] (by decide)

/-- Witness for C9: the argument local 0 has an entry in the index map. -/
theorem c9_witness :
    ∃ v, mapLookup (emitLocalsWith exLocModule exLocFunc [3, 2]).2.1 0 = some v :=
  (c9_map_domain_vs_used exLocModule exLocFunc [3, 2]).1 0 (by decide)

end Walrus
